import Mathlib

/-!
# Verification of the LLM Incident Commander decision pipeline

Shallow embedding of the core components of the repository:

* `app/rate_limiter.py` — sliding-window rate limiter (`SlidingWindowRateLimiter`);
* `app/datadog_resilience.py` — circuit breaker and retry-with-backoff wrapper;
* `app/config.py` — pricing table and `Config.calculate_cost`;
* `app/evaluators.py` — heuristic hallucination score;
* `app/routes.py` — the `/ask` orchestrator (router decision, guardrails,
  token cap, strict token accounting, synchronous judge blocking);
* `app/judge.py` — the judge's JSON parsing policy.

Machine floats are modelled as rationals (`ℚ`); Python's `round` builtin is
modelled by half-even (banker's) rounding, which is what Python uses.
Timestamps (`time.time()` values) are passed explicitly as rational inputs.
-/

namespace IncidentCommander

/-! ## Python `round` (half-even) on rationals -/

/-- Round a rational to the nearest integer, ties to even — the semantics of
Python's builtin `round` on exact values. -/
def pyRoundHalfEven (q : ℚ) : ℤ :=
  let f : ℤ := ⌊q⌋
  let r : ℚ := q - f
  if r < 1/2 then f
  else if 1/2 < r then f + 1
  else if f % 2 = 0 then f else f + 1

/-- Python's `round(q, n)` for `n ≥ 0` digits: half-even rounding at the
`n`-th decimal place. -/
def pyRound (n : ℕ) (q : ℚ) : ℚ :=
  (pyRoundHalfEven (q * 10 ^ n) : ℚ) / 10 ^ n

/-! ## `app/config.py` — pricing and `Config.calculate_cost` -/

/-- One entry of `Config.GEMINI_PRICING_MAP` (the fields read by
`calculate_cost`). -/
structure Pricing where
  inputPer1M : ℚ
  outputPer1M : ℚ
deriving DecidableEq

/-- `Config.GEMINI_PRICING_MAP` from `app/config.py`: the single entry for
`"gemini-2.0-flash"` (input $0.075 / 1M tokens, output $0.30 / 1M tokens). -/
def GEMINI_PRICING_MAP : List (String × Pricing) :=
  [("gemini-2.0-flash", { inputPer1M := 75/1000, outputPer1M := 30/100 })]

/-- The pricing entry used by `Config.calculate_cost` for a given model name:
the map entry when the key is present, otherwise the `"gemini-2.0-flash"`
fallback (lines 106-110 of `app/config.py`). -/
def pricingFor (model : String) : Pricing :=
  match GEMINI_PRICING_MAP.find? (fun p => p.1 = model) with
  | some p => p.2
  | none => { inputPer1M := 75/1000, outputPer1M := 30/100 }

/-- `Config.calculate_cost` from `app/config.py`:
`round(input_tokens/1e6 * in_price + output_tokens/1e6 * out_price, 9)`. -/
def calculate_cost (inputTokens outputTokens : ℕ) (model : String) : ℚ :=
  let pricing := pricingFor model
  let inputCost := ((inputTokens : ℚ) / 1000000) * pricing.inputPer1M
  let outputCost := ((outputTokens : ℚ) / 1000000) * pricing.outputPer1M
  pyRound 9 (inputCost + outputCost)

/-! ## `app/rate_limiter.py` — `SlidingWindowRateLimiter`

The deque of timestamps is modelled as a `List ℚ`, head = oldest (deque
front).  `_cleanup_old_timestamps` pops from the front while the front is
older than `now - window_seconds`; this is `List.dropWhile`. -/

/-- `SlidingWindowRateLimiter._cleanup_old_timestamps`: pop timestamps from
the front of the deque while they are `< now - window_seconds`. -/
def slideCleanup (w now : ℚ) (s : List ℚ) : List ℚ :=
  s.dropWhile (fun t => decide (t < now - w))

/-- `SlidingWindowRateLimiter.is_allowed`: purge, then reject (no append)
when the remaining count is `>= max_calls`, else append `now` and accept.
Returns the decision and the new timestamp deque. -/
def slideAllowed (maxCalls : ℕ) (w now : ℚ) (s : List ℚ) : Bool × List ℚ :=
  let s' := slideCleanup w now s
  if maxCalls ≤ s'.length then (false, s') else (true, s' ++ [now])

/-- Run `is_allowed` over a sequence of call timestamps, collecting the
timestamps of the accepted calls (in call order). -/
def slideAccepted (maxCalls : ℕ) (w : ℚ) : List ℚ → List ℚ → List ℚ
  | [], _ => []
  | now :: rest, s =>
    let r := slideAllowed maxCalls w now s
    (if r.1 then [now] else []) ++ slideAccepted maxCalls w rest r.2

/-- `SlidingWindowRateLimiter.usage_percentage`:
`current_count() / max_calls` when `max_calls > 0`, else `0.0`.
`current_count` purges first, so the count is over the cleaned deque. -/
def slideUsage (maxCalls : ℕ) (w now : ℚ) (s : List ℚ) : ℚ :=
  if 0 < maxCalls then ((slideCleanup w now s).length : ℚ) / maxCalls else 0

/-- `SlidingWindowRateLimiter.is_panic_threshold`: `usage >= panic_threshold`. -/
def slidePanic (maxCalls : ℕ) (w now panicThreshold : ℚ) (s : List ℚ) : Bool :=
  decide (panicThreshold ≤ slideUsage maxCalls w now s)

/-- Membership of a timestamp in the closed window `[a, a + w]`. -/
def inWindow (w a : ℚ) (t : ℚ) : Bool :=
  decide (a ≤ t) && decide (t ≤ a + w)

/-! ## `app/datadog_resilience.py` — `CircuitBreaker` -/

/-- The `state` attribute of `CircuitBreaker`: `"CLOSED"`, `"OPEN"`,
`"HALF_OPEN"`. -/
inductive CBState where
  | closed
  | opened
  | halfOpen
deriving DecidableEq

/-- The mutable attributes of a `CircuitBreaker` instance. -/
structure CB where
  failureCount : ℕ
  lastFailureTime : Option ℚ
  state : CBState
deriving DecidableEq

/-- Result of one `CircuitBreaker.call`: the wrapped function was never
invoked and `Exception("Circuit breaker is OPEN")` was raised (`failFast`);
or it was invoked and returned (`ok`); or it was invoked and raised (`exn`,
re-raised by `call`). -/
inductive CallRes where
  | failFast
  | ok
  | exn
deriving DecidableEq

/-- Python truthiness of `self.last_failure_time` (a float or `None`):
falsy exactly when `None` or `0.0`. -/
def pyTruthyTime : Option ℚ → Bool
  | none => false
  | some t => decide (t ≠ 0)

/-- The OPEN-state pre-check at the top of `CircuitBreaker.call`: when the
state is OPEN and `self.last_failure_time and (now - last > timeout)` is
truthy, move to HALF_OPEN; otherwise leave the breaker unchanged. -/
def CB.preCheck (timeout : ℚ) (cb : CB) (now : ℚ) : CB :=
  if cb.state = .opened then
    if pyTruthyTime cb.lastFailureTime &&
        (match cb.lastFailureTime with
         | some t => decide (timeout < now - t)
         | none => false) then
      { cb with state := .halfOpen }
    else cb
  else cb

/-- `CircuitBreaker.call` (`app/datadog_resilience.py`, lines 21-49),
with the wrapped function's behaviour supplied as `succeeds : Bool`.
After the pre-check: if still OPEN, fail fast without invoking the
function; on success, reset to CLOSED with counter 0 when HALF_OPEN;
on failure, increment the counter, record `now` as the failure time,
and open the breaker when the counter reaches the threshold. -/
def CB.call (timeout : ℚ) (threshold : ℕ) (cb : CB) (now : ℚ) (succeeds : Bool) :
    CB × CallRes :=
  let cb₁ := CB.preCheck timeout cb now
  if cb₁.state = .opened then (cb₁, .failFast)
  else if succeeds then
    (if cb₁.state = .halfOpen then
      { cb₁ with state := .closed, failureCount := 0 }
     else cb₁, .ok)
  else
    let fc := cb₁.failureCount + 1
    ({ failureCount := fc, lastFailureTime := some now,
       state := if threshold ≤ fc then .opened else cb₁.state }, .exn)

/-- Whether the wrapped function was invoked in a `CircuitBreaker.call`
with the given result. -/
def CallRes.invoked : CallRes → Bool
  | .failFast => false
  | .ok => true
  | .exn => true

/-- Fold `CircuitBreaker.call` over a list of `(time, outcome)` pairs. -/
def runCB (timeout : ℚ) (threshold : ℕ) (cb : CB) : List (ℚ × Bool) → CB
  | [] => cb
  | (now, outcome) :: rest =>
    runCB timeout threshold (CB.call timeout threshold cb now outcome).1 rest

/-- The `CircuitBreaker` constructed fresh (`failure_count=0`,
`last_failure_time=None`, `state="CLOSED"`). -/
def CB.init : CB := { failureCount := 0, lastFailureTime := none, state := .closed }

/-! ## `app/datadog_resilience.py` — `retry_with_backoff`

The wrapper loops `for attempt in range(max_retries)`, trying
`dd_circuit_breaker.call(lambda: func(...))` each time.  The outcome of the
`i`-th attempt (return value or raised exception) is supplied as
`att i : Except Unit α`.  The wrapper is modelled as returning the final
result (`some v` on success, `none` after exhaustion — the fallback path
returns `None`), the list of `time.sleep` delays performed, and the number
of attempts made.  Every exception is caught by the `except Exception`
clause, so the wrapper itself never raises. -/

/-- The retry loop of `retry_with_backoff`, from attempt index `i` with the
current `delay`; `fuel` is the number of remaining loop iterations
(`max_retries - i`).  Returns (result, sleep delays performed, next attempt
index after the loop ends). -/
def retryGo {α : Type} (att : ℕ → Except Unit α) (maxRetries : ℕ) (backoffFactor : ℚ) :
    ℕ → ℕ → ℚ → Option α × List ℚ × ℕ
  | 0, i, _ => (none, [], i)
  | fuel + 1, i, delay =>
    match att i with
    | .ok v => (some v, [], i + 1)
    | .error _ =>
      if i < maxRetries - 1 then
        let r := retryGo att maxRetries backoffFactor fuel (i + 1) (delay * backoffFactor)
        (r.1, delay :: r.2.1, r.2.2)
      else
        retryGo att maxRetries backoffFactor fuel (i + 1) delay

/-- `retry_with_backoff(max_retries, initial_delay, backoff_factor)` applied
to a wrapped function whose `i`-th attempt outcome is `att i`. -/
def retryWithBackoff {α : Type} (maxRetries : ℕ) (initialDelay backoffFactor : ℚ)
    (att : ℕ → Except Unit α) : Option α × List ℚ × ℕ :=
  retryGo att maxRetries backoffFactor maxRetries 0 initialDelay

/-! ## `app/evaluators.py` — `calculate_hallucination_score` -/

/-- Substring containment (Python's `needle in haystack` on strings),
on character lists. -/
def hasSubstr (needle : List Char) : List Char → Bool
  | [] => needle.isEmpty
  | c :: rest => needle.isPrefixOf (c :: rest) || hasSubstr needle rest

/-- `Config.HALLUCINATION_RED_FLAGS` from `app/config.py`. -/
def HALLUCINATION_RED_FLAGS : List String :=
  ["I think", "maybe", "might be wrong", "not sure",
   "I\x27m not certain", "possibly", "could be", "I guess"]

/-- `calculate_hallucination_score` from `app/evaluators.py`: count the red
flags occurring (case-insensitively) in the text, take `min(1.0, hits/3.0)`
and round to 3 digits. -/
def calculate_hallucination_score (text : String) : ℚ :=
  let lower := text.data.map Char.toLower
  let hits := HALLUCINATION_RED_FLAGS.countP
    (fun flag => hasSubstr (flag.data.map Char.toLower) lower)
  pyRound 3 (min 1 ((hits : ℚ) / 3))

/-! ## `app/routes.py` — the `/ask` orchestrator

The decision logic of `ask` (steps 1.5, 2, the guardrails, 3A, 3B, strict
token accounting, cost computation and the synchronous-judge prevention
logic) is embedded as a pure function.  External collaborators (retrieval,
the generative model, the judge model) are supplied as inputs: the
retrieval result, the generative response, and the judge verdict.  Fields
of the HTTP response that no claim mentions (request id, echoed question,
latency, free-text message) are not modelled; metric emission and logging
are side effects outside the embedding. -/

/-- The configuration fields of `app/config.py` read by the `/ask` route.
All are read once at process start. -/
structure AppConfig where
  safeMode : Bool
  enableLLM : Bool
  simThreshold : ℚ
  rateLimitMaxCalls : ℕ
  windowSeconds : ℚ
  panicThreshold : ℚ
  maxOutputTokens : ℕ
  maxOutputTokensCap : ℕ
  vertexModel : String
deriving DecidableEq

/-- The request fields of `AskRequest` read by the decision logic. -/
structure AskReq where
  question : String
  needsReasoning : Bool
  testMode : Option String
  maxTokens : Option ℕ
deriving DecidableEq

/-- The retrieval-result fields read by the `/ask` route. -/
structure RagRes where
  context : String
  bestScore : ℚ
  isDisabled : Bool
  disabledReason : String
deriving DecidableEq

/-- A generative-model response: the text and, when present, the usage
metadata `(prompt_token_count, candidates_token_count)`. -/
structure GenRes where
  text : String
  usage : Option (ℕ × ℕ)
deriving DecidableEq

/-- The judge-verdict fields consumed by the `/ask` route's prevention
logic (`judge_result["hallucination_score"]`,
`judge_result.get("grounding_coverage", 1.0)`). -/
structure Verdict where
  hallucinationScore : ℚ
  groundingCoverage : ℚ
deriving DecidableEq

/-- `llm_invocation_reason` values, as set in step 2 of `ask`.  The code
stores these as strings (`"explicit_request"`, `"test_mode:<mode>"`,
`"low_similarity:<score:.3f>"`); the constructors carry the formatted
data. -/
inductive InvReason where
  | explicitRequest
  | testModeReason (mode : String)
  | lowSimilarity (score : ℚ)
deriving DecidableEq

/-- `llm_skip_reason` values, as set in step 2 and the guardrails of `ask`
(`"high_similarity:<score:.3f>"`, `"llm_disabled"`, `"panic_threshold"`,
`"rate_limited"`). -/
inductive SkipReason where
  | highSimilarity (score : ℚ)
  | llmDisabled
  | panicThreshold
  | rateLimited
deriving DecidableEq

/-- Outcome of step 2 + guardrails of `ask` (lines 169-218 of
`app/routes.py`): the invocation decision, the reasons, and the rate
limiter's timestamp deque after the guardrail calls. -/
structure RouteDecision where
  shouldInvoke : Bool
  invocationReason : Option InvReason
  skipReason : Option SkipReason
  limiterAfter : List ℚ
deriving DecidableEq

/-- Steps 2-3 of `ask`: determine whether LLM generation is needed, then
apply the guardrails in order (kill-switch, panic threshold, rate limit).
`lim` is the rate limiter's deque and `now` the request's clock reading
(the code calls `time.time()` at each limiter operation; within one
request these readings are modelled as equal). -/
def routerDecision (cfg : AppConfig) (needsReasoning : Bool) (testMode : Option String)
    (bestScore : ℚ) (now : ℚ) (lim : List ℚ) : RouteDecision :=
  -- Step 2: determine if LLM generation is needed
  let step2 : Bool × Option InvReason × Option SkipReason :=
    if needsReasoning then (true, some .explicitRequest, none)
    else if testMode = some "hallucination" ∨ testMode = some "cost" then
      (true, (testMode.map fun m => .testModeReason m), none)
    else if bestScore < cfg.simThreshold then
      (true, some (.lowSimilarity bestScore), none)
    else (false, none, some (.highSimilarity bestScore))
  -- Guardrails, applied only if the LLM would be invoked
  if step2.1 then
    if !cfg.enableLLM then
      { shouldInvoke := false, invocationReason := step2.2.1,
        skipReason := some .llmDisabled, limiterAfter := lim }
    else if slidePanic cfg.rateLimitMaxCalls cfg.windowSeconds now cfg.panicThreshold lim then
      -- `is_panic_threshold` reads `current_count`, which purges the deque
      { shouldInvoke := false, invocationReason := step2.2.1,
        skipReason := some .panicThreshold,
        limiterAfter := slideCleanup cfg.windowSeconds now lim }
    else
      let r := slideAllowed cfg.rateLimitMaxCalls cfg.windowSeconds now
        (slideCleanup cfg.windowSeconds now lim)
      if !r.1 then
        { shouldInvoke := false, invocationReason := step2.2.1,
          skipReason := some .rateLimited, limiterAfter := r.2 }
      else
        { shouldInvoke := true, invocationReason := step2.2.1,
          skipReason := none, limiterAfter := r.2 }
  else
    { shouldInvoke := false, invocationReason := step2.2.1,
      skipReason := step2.2.2, limiterAfter := lim }

/-- The `max_output_tokens` value placed in `generation_config` by `ask`
(lines 285-310 of `app/routes.py`): the per-request override (falling back
to the configured default when absent or falsy) capped by
`LLM_MAX_OUTPUT_TOKENS_CAP`; in cost test mode, `min(2800, cap)`. -/
def effectiveMaxOutputTokens (cfg : AppConfig) (reqMaxTokens : Option ℕ)
    (testMode : Option String) : ℕ :=
  let requested := match reqMaxTokens with
    | none => cfg.maxOutputTokens
    | some n => if n = 0 then cfg.maxOutputTokens else n
  let maxTokens := min requested cfg.maxOutputTokensCap
  if testMode = some "cost" then min 2800 cfg.maxOutputTokensCap else maxTokens

/-- Percent formatting `f"{q:.0%}"` as used in the vector-only answer. -/
def formatPercent (q : ℚ) : String :=
  toString (pyRoundHalfEven (q * 100)) ++ "%"

/-- The fields of `AskResponse` that the claims mention. -/
structure AskResp where
  answer : String
  tokensInput : ℕ
  tokensOutput : ℕ
  tokensTotal : ℕ
  costUsd : ℚ
  hallucinationScore : ℚ
  status : String
  source : String
deriving DecidableEq

/-- A raised `HTTPException`: status code and the `detail["error"]` kind. -/
structure HttpErr where
  statusCode : ℕ
  errorKind : String
deriving DecidableEq

/-- The fixed blocked payload substituted for the answer by the prevention
logic. -/
def blockedAnswer : String :=
  "[BLOCKED] The response was blocked by the safety system because it was not grounded in the provided context (Hallucination Detected)."

/-- The strict token accounting check of `ask` (`app/routes.py`, lines
319-326): a response without usage metadata raises
`HTTPException(500, detail.error = "token_metadata_unavailable")`;
otherwise the prompt and candidates token counts are read. -/
def strictTokenAccounting (usage : Option (ℕ × ℕ)) : Except HttpErr (ℕ × ℕ) :=
  match usage with
  | none => .error { statusCode := 500, errorKind := "token_metadata_unavailable" }
  | some (inputTokens, outputTokens) => .ok (inputTokens, outputTokens)

/-- `_handle_error` from `app/routes.py` (lines 461-471): emits error
metrics, logs the caught exception, and raises a fresh `HTTPException`
carrying the given error kind and status code.  The original exception
reaches only the logs. -/
def handle_error (errorType : String) (statusCode : ℕ) : HttpErr :=
  { statusCode := statusCode, errorKind := errorType }

/-- The post-generation processing of `ask` once the usage metadata is
present: cost computation (with the cost-test-mode simulated pricing),
the heuristic hallucination pre-score, and the synchronous judge
prevention logic in hallucination test mode.  Every path returns a
response. -/
def llmRespond (cfg : AppConfig) (req : AskReq) (gen : GenRes) (judge : Option Verdict)
    (inputTokens outputTokens : ℕ) : AskResp :=
  let totalTokens := inputTokens + outputTokens
  let costUsd :=
    if req.testMode = some "cost" then
      ((inputTokens : ℚ) / 1000000) * (35/10) + ((outputTokens : ℚ) / 1000000) * (105/10)
    else calculate_cost inputTokens outputTokens cfg.vertexModel
  let hallucinationScore := calculate_hallucination_score gen.text
  if req.testMode = some "hallucination" then
    match judge with
    | some v =>
      if 6/10 < v.hallucinationScore ∨ v.groundingCoverage < 4/10 then
        { answer := blockedAnswer,
          tokensInput := inputTokens, tokensOutput := outputTokens,
          tokensTotal := totalTokens, costUsd := pyRound 6 costUsd,
          hallucinationScore := v.hallucinationScore,
          status := "blocked", source := "llm_generation" }
      else
        { answer := gen.text,
          tokensInput := inputTokens, tokensOutput := outputTokens,
          tokensTotal := totalTokens, costUsd := pyRound 6 costUsd,
          hallucinationScore := v.hallucinationScore,
          status := "success", source := "llm_generation" }
    | none =>
      { answer := gen.text,
        tokensInput := inputTokens, tokensOutput := outputTokens,
        tokensTotal := totalTokens, costUsd := pyRound 6 costUsd,
        hallucinationScore := hallucinationScore,
        status := "success", source := "llm_generation" }
  else
    { answer := gen.text,
      tokensInput := inputTokens, tokensOutput := outputTokens,
      tokensTotal := totalTokens, costUsd := pyRound 6 costUsd,
      hallucinationScore := hallucinationScore,
      status := "success", source := "llm_generation" }

/-- The `/ask` orchestrator (`app/routes.py`), as a pure function of the
request, the retrieval result, the rate limiter deque, the clock, the
generative response and the judge verdict.  Returns the response or the
raised `HTTPException`.  The generative call's transport-level failure
branches (timeout, quota, API error) are collaborator failures outside
this embedding; `gen` is the returned response object.  The
strict-accounting `HTTPException` is raised inside the `try` block, where
none of `asyncio.TimeoutError`, `ResourceExhausted`, `DeadlineExceeded`
or `GoogleAPICallError` matches it; the final `except Exception` clause
(lines 336-337) catches it and `_handle_error` re-raises with error kind
`"unexpected"` and status 500 — that re-branded exception is what
propagates to the caller. -/
def askModel (cfg : AppConfig) (req : AskReq) (rag : RagRes) (lim : List ℚ)
    (now : ℚ) (gen : GenRes) (judge : Option Verdict) : Except HttpErr AskResp :=
  -- Step 1.5: RAG disabled handling
  if rag.isDisabled && !(cfg.enableLLM && !cfg.safeMode) then
    .ok { answer := "Vector Search is currently disabled.\n\n" ++ rag.disabledReason
            ++ "\n\nTo enable on-demand Vector Search infrastructure, see the README.",
          tokensInput := 0, tokensOutput := 0, tokensTotal := 0,
          costUsd := 0, hallucinationScore := 0,
          status := "rag_disabled", source := "disabled" }
  else
    -- Step 2 + guardrails
    let d := routerDecision cfg req.needsReasoning req.testMode rag.bestScore now lim
    if !d.shouldInvoke then
      -- Step 3A: vector-search-only response
      let answer :=
        if rag.context ≠ "" then
          "Based on our knowledge base (confidence: " ++ formatPercent rag.bestScore
            ++ "):\n\n" ++ rag.context
        else
          "No relevant information found in the knowledge base. Please refine your question or request LLM reasoning with needs_reasoning=true."
      .ok { answer := answer, tokensInput := 0, tokensOutput := 0, tokensTotal := 0,
            costUsd := 0, hallucinationScore := 0,
            status := "vector_only", source := "vector_search" }
    else
      -- Step 3B: LLM generation; strict token accounting (fail closed).
      -- The raised HTTPException is caught by `except Exception` and
      -- re-raised by `_handle_error` as an "unexpected" 500.
      match strictTokenAccounting gen.usage with
      | .error _ => .error (handle_error "unexpected" 500)
      | .ok (inputTokens, outputTokens) =>
        .ok (llmRespond cfg req gen judge inputTokens outputTokens)

/-! ## `app/judge.py` — JSON parsing policy

`run_judge_evaluation_two_stage` parses the judge model's text with
`json.loads`; on `JSONDecodeError` it slices from the first `{` to the
last `}` and reparses; a second failure (or absent braces) re-raises, and
the `except` handlers at the judge boundary return `None`.  `json.loads`
is modelled by an executable parser for the JSON grammar Python accepts
(strict mode: the whole input must be consumed; no trailing data; control
characters must be escaped; `\uXXXX` escapes are decoded without surrogate
pairing). -/

/-- The open-brace character (`0x7b`). -/
def lbrace : Char := Char.ofNat 123

/-- The close-brace character (`0x7d`). -/
def rbrace : Char := Char.ofNat 125

/-- JSON whitespace accepted between tokens by `json.loads`. -/
def jsonWsChar (c : Char) : Bool :=
  c = ' ' || c = '\t' || c = '\n' || c = '\r'

/-- Skip JSON whitespace. -/
def skipWs (cs : List Char) : List Char := cs.dropWhile jsonWsChar

/-- Parsed JSON values (Python `json.loads` output). -/
inductive Json where
  | jnull
  | jbool (b : Bool)
  | jnum (q : ℚ)
  | jstr (s : List Char)
  | jarr (xs : List Json)
  | jobj (kvs : List (List Char × Json))

/-- Value of a hexadecimal digit. -/
def hexVal (c : Char) : Option ℕ :=
  if c.isDigit then some (c.toNat - 48)
  else if 'a' ≤ c ∧ c ≤ 'f' then some (c.toNat - 87)
  else if 'A' ≤ c ∧ c ≤ 'F' then some (c.toNat - 55)
  else none

/-- Parse the body of a JSON string after the opening quote, up to and
including the closing quote.  Returns the decoded characters and the
remaining input.  Unescaped control characters and invalid escapes are
errors, as in Python's strict mode. -/
def parseJStrBody : ℕ → List Char → Option (List Char × List Char)
  | 0, _ => none
  | fuel + 1, cs =>
    match cs with
    | [] => none
    | c :: rest =>
      if c = '"' then some ([], rest)
      else if c = '\\' then
        match rest with
        | [] => none
        | e :: rest' =>
          let cont := fun (ch : Char) (rs : List Char) =>
            (parseJStrBody fuel rs).map (fun p => (ch :: p.1, p.2))
          if e = '"' then cont '"' rest'
          else if e = '\\' then cont '\\' rest'
          else if e = '/' then cont '/' rest'
          else if e = 'n' then cont '\n' rest'
          else if e = 't' then cont '\t' rest'
          else if e = 'r' then cont '\r' rest'
          else if e = 'b' then cont (Char.ofNat 8) rest'
          else if e = 'f' then cont (Char.ofNat 12) rest'
          else if e = 'u' then
            match rest' with
            | a :: b :: c2 :: d :: rest2 =>
              match hexVal a, hexVal b, hexVal c2, hexVal d with
              | some ha, some hb, some hc, some hd =>
                cont (Char.ofNat (((ha * 16 + hb) * 16 + hc) * 16 + hd)) rest2
              | _, _, _, _ => none
            | _ => none
          else none
      else if c.toNat < 32 then none
      else (parseJStrBody fuel rest).map (fun p => (c :: p.1, p.2))

/-- Numeric value of a list of decimal digit characters. -/
def digitsToNat (ds : List Char) : ℕ :=
  ds.foldl (fun n c => 10 * n + (c.toNat - 48)) 0

/-- Parse the integer part of a JSON number: `0`, or a nonzero digit
followed by digits (leading zeros are rejected, per the JSON grammar). -/
def parseIntPart : List Char → Option (ℕ × List Char)
  | [] => none
  | c :: rest =>
    if c = '0' then some (0, rest)
    else if c.isDigit then
      some (digitsToNat ((c :: rest).takeWhile Char.isDigit),
            (c :: rest).dropWhile Char.isDigit)
    else none

/-- Parse a JSON number (`-?(0|[1-9]\d*)(\.\d+)?([eE][-+]?\d+)?`); the
optional fraction and exponent groups are consumed only when they match in
full, as with the scanner's regular expression. -/
def parseJNum (cs : List Char) : Option (ℚ × List Char) :=
  let signed : Bool × List Char :=
    match cs with
    | c :: rest => if c = '-' then (true, rest) else (false, cs)
    | [] => (false, cs)
  match parseIntPart signed.2 with
  | none => none
  | some (ip, cs₂) =>
    let fracP : ℚ × List Char :=
      match cs₂ with
      | c :: rest =>
        if c = '.' then
          let ds := rest.takeWhile Char.isDigit
          if ds = [] then (0, cs₂)
          else ((digitsToNat ds : ℚ) / 10 ^ ds.length, rest.dropWhile Char.isDigit)
        else (0, cs₂)
      | [] => (0, cs₂)
    let expP : ℤ × List Char :=
      match fracP.2 with
      | c :: rest =>
        if c = 'e' ∨ c = 'E' then
          let se : ℤ × List Char :=
            match rest with
            | s :: r2 =>
              if s = '+' then (1, r2) else if s = '-' then (-1, r2) else (1, rest)
            | [] => (1, rest)
          let ds := se.2.takeWhile Char.isDigit
          if ds = [] then (0, fracP.2)
          else (se.1 * (digitsToNat ds : ℤ), se.2.dropWhile Char.isDigit)
        else (0, fracP.2)
      | [] => (0, fracP.2)
    let mag : ℚ := ((ip : ℚ) + fracP.1) * (10 : ℚ) ^ expP.1
    some ((if signed.1 then -mag else mag), expP.2)

mutual

/-- Parse one JSON value (after skipping leading whitespace), returning the
value and the remaining input.  `fuel` bounds the nesting recursion. -/
def parseValue : ℕ → List Char → Option (Json × List Char)
  | 0, _ => none
  | fuel + 1, cs0 =>
    match skipWs cs0 with
    | [] => none
    | c :: rest =>
      if c = lbrace then
        match skipWs rest with
        | [] => none
        | c2 :: rest2 =>
          if c2 = rbrace then some (.jobj [], rest2)
          else (parseObjItems fuel (c2 :: rest2)).map (fun p => (.jobj p.1, p.2))
      else if c = '[' then
        match skipWs rest with
        | [] => none
        | c2 :: rest2 =>
          if c2 = ']' then some (.jarr [], rest2)
          else (parseArrItems fuel (c2 :: rest2)).map (fun p => (.jarr p.1, p.2))
      else if c = '"' then
        (parseJStrBody (rest.length + 1) rest).map (fun p => (.jstr p.1, p.2))
      else if c = 't' then
        match rest with
        | 'r' :: 'u' :: 'e' :: r2 => some (.jbool true, r2)
        | _ => none
      else if c = 'f' then
        match rest with
        | 'a' :: 'l' :: 's' :: 'e' :: r2 => some (.jbool false, r2)
        | _ => none
      else if c = 'n' then
        match rest with
        | 'u' :: 'l' :: 'l' :: r2 => some (.jnull, r2)
        | _ => none
      else (parseJNum (c :: rest)).map (fun p => (.jnum p.1, p.2))

/-- Parse the members of a nonempty JSON object, positioned at a key. -/
def parseObjItems : ℕ → List Char → Option (List (List Char × Json) × List Char)
  | 0, _ => none
  | fuel + 1, cs =>
    match cs with
    | [] => none
    | c :: rest =>
      if c = '"' then
        match parseJStrBody (rest.length + 1) rest with
        | none => none
        | some (key, cs₂) =>
          match skipWs cs₂ with
          | [] => none
          | c2 :: cs₃ =>
            if c2 = ':' then
              match parseValue fuel cs₃ with
              | none => none
              | some (v, cs₄) =>
                match skipWs cs₄ with
                | [] => none
                | c3 :: cs₅ =>
                  if c3 = ',' then
                    (parseObjItems fuel (skipWs cs₅)).map
                      (fun p => ((key, v) :: p.1, p.2))
                  else if c3 = rbrace then some ([(key, v)], cs₅)
                  else none
            else none
      else none

/-- Parse the elements of a nonempty JSON array, positioned at a value. -/
def parseArrItems : ℕ → List Char → Option (List Json × List Char)
  | 0, _ => none
  | fuel + 1, cs =>
    match parseValue fuel cs with
    | none => none
    | some (v, cs₂) =>
      match skipWs cs₂ with
      | [] => none
      | c :: cs₃ =>
        if c = ',' then
          (parseArrItems fuel (skipWs cs₃)).map (fun p => (v :: p.1, p.2))
        else if c = ']' then some ([v], cs₃)
        else none

end

/-- `json.loads` on a character list: parse one value and require that only
whitespace remains (`Extra data` otherwise). -/
def jsonLoadsChars (cs : List Char) : Option Json :=
  match parseValue (cs.length + 1) cs with
  | some (j, rest) => if skipWs rest = [] then some j else none
  | none => none

/-- `json.loads` on a string. -/
def jsonLoads (s : String) : Option Json := jsonLoadsChars s.data

/-- Python `dict.get(key, default)` on a parsed object: with duplicate
keys, `json.loads` keeps the last occurrence. -/
def jget (kvs : List (List Char × Json)) (key : List Char) (dflt : Json) : Json :=
  match kvs.reverse.find? (fun p => p.1 == key) with
  | some p => p.2
  | none => dflt

/-- Python whitespace stripped by `float(str)` / `int(str)`. -/
def pyStripWsChar (c : Char) : Bool :=
  jsonWsChar c || c = Char.ofNat 11 || c = Char.ofNat 12

/-- Python `float(str)` on a decimal literal: optional sign, digits with an
optional point (at least one digit overall), optional exponent; the whole
(stripped) string must match.  (`inf`/`nan` literals and underscore
separators are not modelled; they do not occur in judge outputs.) -/
def pyParseFloatChars (cs0 : List Char) : Option ℚ :=
  let cs := ((cs0.dropWhile pyStripWsChar).reverse.dropWhile pyStripWsChar).reverse
  let signed : Bool × List Char :=
    match cs with
    | c :: rest =>
      if c = '-' then (true, rest) else if c = '+' then (false, rest) else (false, cs)
    | [] => (false, cs)
  let intDs := signed.2.takeWhile Char.isDigit
  let cs₂ := signed.2.dropWhile Char.isDigit
  let fracP : List Char × List Char :=
    match cs₂ with
    | c :: rest => if c = '.' then (rest.takeWhile Char.isDigit, rest.dropWhile Char.isDigit) else ([], cs₂)
    | [] => ([], cs₂)
  if intDs = [] ∧ fracP.1 = [] then none
  else
    let mantissa : ℚ := (digitsToNat intDs : ℚ) + (digitsToNat fracP.1 : ℚ) / 10 ^ fracP.1.length
    match fracP.2 with
    | [] => some (if signed.1 then -mantissa else mantissa)
    | c :: rest =>
      if c = 'e' ∨ c = 'E' then
        let se : ℤ × List Char :=
          match rest with
          | s :: r2 => if s = '+' then (1, r2) else if s = '-' then (-1, r2) else (1, rest)
          | [] => (1, rest)
        let ds := se.2.takeWhile Char.isDigit
        if ds = [] then none
        else if se.2.dropWhile Char.isDigit = [] then
          some ((if signed.1 then -mantissa else mantissa) * (10 : ℚ) ^ (se.1 * (digitsToNat ds : ℤ)))
        else none
      else none

/-- Python `int(str)` on a decimal integer literal: optional sign,
digits only, whole (stripped) string must match. -/
def pyParseIntChars (cs0 : List Char) : Option ℤ :=
  let cs := ((cs0.dropWhile pyStripWsChar).reverse.dropWhile pyStripWsChar).reverse
  let signed : Bool × List Char :=
    match cs with
    | c :: rest =>
      if c = '-' then (true, rest) else if c = '+' then (false, rest) else (false, cs)
    | [] => (false, cs)
  let ds := signed.2.takeWhile Char.isDigit
  if ds = [] then none
  else if signed.2.dropWhile Char.isDigit = [] then
    some (if signed.1 then -(digitsToNat ds : ℤ) else (digitsToNat ds : ℤ))
  else none

/-- Python `float(x)` on a `json.loads` value: numbers are returned,
booleans coerce to 1/0, numeric strings are parsed; `None`, lists and
objects raise (modelled as `none`). -/
def pyFloatOfJson : Json → Option ℚ
  | .jnum q => some q
  | .jbool b => some (if b then 1 else 0)
  | .jstr s => pyParseFloatChars s
  | _ => none

/-- Python `int(x)` on a `json.loads` value: numbers truncate toward zero,
booleans coerce, integer strings are parsed; anything else raises. -/
def pyIntOfJson : Json → Option ℤ
  | .jnum q => some (Int.tdiv q.num (q.den : ℤ))
  | .jbool b => some (if b then 1 else 0)
  | .jstr s => pyParseIntChars s
  | _ => none

/-- Metric extraction from the parsed judge output (`app/judge.py`, lines
96-101): `float(eval_data.get("hallucination_score", 0.0))`,
`float(eval_data.get("grounding_coverage", 1.0))`, and the `int(...)`
conversions of the claim counters, any of which raises (yielding no
verdict) on a non-convertible value.  A non-object parse result raises at
the first `.get` (`AttributeError`).  Only the two scores are consumed by
the caller in `app/routes.py`. -/
def extractVerdict : Json → Option Verdict
  | .jobj kvs =>
    match pyFloatOfJson (jget kvs "hallucination_score".data (.jnum 0)),
          pyFloatOfJson (jget kvs "grounding_coverage".data (.jnum 1)),
          pyIntOfJson (jget kvs "contradictions".data (.jnum 0)),
          pyIntOfJson (jget kvs "unsupported_claims".data (.jnum 0)) with
    | some h, some g, some _, some _ => some { hallucinationScore := h, groundingCoverage := g }
    | _, _, _, _ => none
  | _ => none

/-- `str.find(ch)` (Python): index of the first occurrence. -/
def pyFindChar (cs : List Char) (c : Char) : ℕ := cs.findIdx (· == c)

/-- `str.rfind(ch)` (Python): index of the last occurrence. -/
def pyRFindChar (cs : List Char) (c : Char) : ℕ :=
  cs.length - 1 - cs.reverse.findIdx (· == c)

/-- The fallback slice of `app/judge.py` lines 87-91:
`text[text.find("\x7b") : text.rfind("\x7d") + 1]`. -/
def judgeSlice (cs : List Char) : List Char :=
  let s := pyFindChar cs lbrace
  let e := pyRFindChar cs rbrace + 1
  (cs.drop s).take (e - s)

/-- The judge's JSON parsing policy (`app/judge.py`, lines 82-93): strict
parse; on failure, when both braces occur in the text, reparse the slice
from the first `\x7b` to the last `\x7d`; otherwise re-raise (the caller's
handlers return no verdict). -/
def judgeParsedJson (text : String) : Option Json :=
  match jsonLoads text with
  | some j => some j
  | none =>
    if text.data.contains lbrace && text.data.contains rbrace then
      jsonLoadsChars (judgeSlice text.data)
    else none

/-- The verdict produced by the judge boundary for a given judge-model
text: any parse failure or conversion error is caught by the `except`
handlers at lines 166-174 of `app/judge.py` and yields `none` (no verdict);
no exception escapes the boundary. -/
def judgeVerdict (text : String) : Option Verdict :=
  (judgeParsedJson text).bind extractVerdict

/-- Scan for the closing brace matching an already-seen opening brace,
accumulating the scanned characters. -/
def firstBalancedAux (acc : List Char) : ℕ → List Char → Option (List Char)
  | _, [] => none
  | depth, c :: rest =>
    if c = lbrace then firstBalancedAux (c :: acc) (depth + 1) rest
    else if c = rbrace then
      if depth = 1 then some ((c :: acc).reverse)
      else firstBalancedAux (c :: acc) (depth - 1) rest
    else firstBalancedAux (c :: acc) depth rest

/-- Modelled from the spec: "extract the first balanced `\x7b...\x7d`
substring" — the substring from the first opening brace to the brace that
balances it. -/
def firstBalanced (text : String) : Option (List Char) :=
  match text.data.dropWhile (fun c => !(c == lbrace)) with
  | [] => none
  | c :: rest => firstBalancedAux [c] 1 rest

/-- Modelled from the spec (§4.4 parsing policy): strict parse; on failure
extract the first balanced brace substring and reparse; on a second
failure, no verdict. -/
def specJudgeVerdict (text : String) : Option Verdict :=
  (match jsonLoads text with
   | some j => some j
   | none =>
     match firstBalanced text with
     | some sub => jsonLoadsChars sub
     | none => none).bind extractVerdict

/-! ### Demo instances used by the witnesses -/

/-- The configuration with all defaults from `app/config.py` (SAFE_MODE
off, generation enabled, similarity threshold 0.7, 100 calls/hour, cap
1024, panic threshold 0.9). -/
def cfgD : AppConfig :=
  { safeMode := false, enableLLM := true, simThreshold := 7/10,
    rateLimitMaxCalls := 100, windowSeconds := 3600, panicThreshold := 9/10,
    maxOutputTokens := 512, maxOutputTokensCap := 1024,
    vertexModel := "gemini-2.0-flash" }

/-- A live retrieval result with a mid-range best score. -/
def ragD : RagRes :=
  { context := "ctx", bestScore := 1/2, isDisabled := false, disabledReason := "" }

/-- A plain request (no reasoning override, no test mode). -/
def reqD : AskReq :=
  { question := "q", needsReasoning := false, testMode := none, maxTokens := none }

/-- The hallucination-demo request (synchronous judge mode). -/
def reqHalluc : AskReq := { reqD with testMode := some "hallucination" }

/-- A generative response with usage metadata present. -/
def genD : GenRes := { text := "the llm answer", usage := some (5, 7) }

/-- The default configuration with the generation kill-switch off. -/
def cfgOff : AppConfig := { cfgD with enableLLM := false }

/-- The default configuration with a 2-call rate limit (panic threshold at
two recorded calls). -/
def cfgPanic : AppConfig := { cfgD with rateLimitMaxCalls := 2 }

/-- A configuration with a 1-call rate limit and a panic threshold above
1, so the rate-limit guardrail (not the panic guardrail) fires when the
window is full. -/
def cfgRL : AppConfig := { cfgD with rateLimitMaxCalls := 1, panicThreshold := 2 }

/-! ## Claims -/

/-- C8: The cost computation is exact at the configured precision: for
`inputTokens = 1000000` and `outputTokens = 1000000` with pricing
in = 0.075 and out = 0.30 per million tokens, `calculate_cost` returns
0.375, and for zero tokens it returns 0. -/
theorem C8_cost_exact :
    pricingFor "gemini-2.0-flash" = { inputPer1M := 75/1000, outputPer1M := 30/100 } ∧
    calculate_cost 1000000 1000000 "gemini-2.0-flash" = 375/1000 ∧
    calculate_cost 0 0 "gemini-2.0-flash" = 0 := by
  refine ⟨?_, ?_, ?_⟩ <;> with_unfolding_all decide

/-- C10: For every configuration, per-request `max_tokens` value and test
mode, the `max_output_tokens` value placed in the generation config never
exceeds the configured hard cap `LLM_MAX_OUTPUT_TOKENS_CAP`. -/
theorem C10_token_cap (cfg : AppConfig) (reqMaxTokens : Option ℕ)
    (testMode : Option String) :
    effectiveMaxOutputTokens cfg reqMaxTokens testMode ≤ cfg.maxOutputTokensCap := by
  rcases reqMaxTokens with _ | n <;> simp only [effectiveMaxOutputTokens] <;>
    split <;> exact Nat.min_le_right _ _

/-! ### Circuit breaker lemmas -/

/-- A successful call in the CLOSED state leaves the breaker unchanged. -/
lemma cb_call_closed_success (timeout : ℚ) (threshold : ℕ) (cb : CB) (now : ℚ)
    (h : cb.state = .closed) : CB.call timeout threshold cb now true = (cb, .ok) := by
  simp [CB.call, CB.preCheck, h]

/-- A failing call in the CLOSED state increments the counter, records the
failure time, and opens the breaker exactly when the counter reaches the
threshold. -/
lemma cb_call_closed_failure (timeout : ℚ) (threshold : ℕ) (cb : CB) (now : ℚ)
    (h : cb.state = .closed) :
    CB.call timeout threshold cb now false =
      ({ failureCount := cb.failureCount + 1, lastFailureTime := some now,
         state := if threshold ≤ cb.failureCount + 1 then .opened else .closed }, .exn) := by
  simp [CB.call, CB.preCheck, h]

/-- Once OPEN with the counter at or above the threshold, a run of failing
calls leaves the breaker OPEN with the counter still at or above the
threshold. -/
lemma runCB_open_absorb (timeout : ℚ) (threshold : ℕ) :
    ∀ (l : List (ℚ × Bool)) (cb : CB), (∀ p ∈ l, p.2 = false) →
      cb.state = .opened → threshold ≤ cb.failureCount →
      (runCB timeout threshold cb l).state = .opened ∧
        threshold ≤ (runCB timeout threshold cb l).failureCount := by
  intro l
  induction l with
  | nil => intro cb _ hs hc; exact ⟨hs, hc⟩
  | cons p rest ih =>
    intro cb hall hs hc
    have hp : p.2 = false := hall p (List.mem_cons_self _ _)
    have hrest : ∀ q ∈ rest, q.2 = false := fun q hq => hall q (List.mem_cons_of_mem _ hq)
    obtain ⟨now, b⟩ := p
    simp only at hp
    subst hp
    by_cases half : (pyTruthyTime cb.lastFailureTime &&
        (match cb.lastFailureTime with
         | some t => decide (timeout < now - t)
         | none => false)) = true
    · -- breaker moves to HALF_OPEN, the call fails, breaker re-opens
      have hx : CB.call timeout threshold cb now false =
          ({ failureCount := cb.failureCount + 1, lastFailureTime := some now,
             state := .opened }, .exn) := by
        simp [CB.call, CB.preCheck, hs, half, Nat.le_succ_of_le hc]
      rw [runCB, hx]
      exact ih _ hrest rfl (Nat.le_succ_of_le hc)
    · -- fail fast: the breaker is untouched
      have hx : CB.call timeout threshold cb now false = (cb, .failFast) := by
        simp [CB.call, CB.preCheck, hs, half]
      rw [runCB, hx]
      exact ih cb hrest hs hc
  -- the lemma treats the result state and counter together

/-- From a CLOSED breaker, a run of failing calls that brings the total
counter to the threshold ends in the OPEN state. -/
lemma runCB_closed_fail_opens (timeout : ℚ) (threshold : ℕ) :
    ∀ (l : List (ℚ × Bool)) (cb : CB), (∀ p ∈ l, p.2 = false) →
      cb.state = .closed → threshold ≤ cb.failureCount + l.length →
      cb.failureCount < threshold →
      (runCB timeout threshold cb l).state = .opened := by
  intro l
  induction l with
  | nil =>
    intro cb _ _ hbig hsmall
    simp only [List.length_nil, Nat.add_zero] at hbig
    exact absurd hbig (Nat.not_le_of_lt hsmall)
  | cons p rest ih =>
    intro cb hall hs hbig hsmall
    have hp : p.2 = false := hall p (List.mem_cons_self _ _)
    have hrest : ∀ q ∈ rest, q.2 = false := fun q hq => hall q (List.mem_cons_of_mem _ hq)
    obtain ⟨now, b⟩ := p
    simp only at hp
    subst hp
    rw [runCB, cb_call_closed_failure timeout threshold cb now hs]
    by_cases hth : threshold ≤ cb.failureCount + 1
    · have := runCB_open_absorb timeout threshold rest
        { failureCount := cb.failureCount + 1, lastFailureTime := some now, state := .opened }
        hrest rfl hth
      simpa [hth] using this.1
    · have hlt : cb.failureCount + 1 < threshold := Nat.lt_of_not_le hth
      have := ih { failureCount := cb.failureCount + 1, lastFailureTime := some now,
                   state := .closed } hrest rfl
        (by simpa [List.length_cons, Nat.add_comm, Nat.add_left_comm, Nat.add_assoc] using hbig)
        hlt
      simpa [hth] using this

/-- From a CLOSED breaker, a run in which successes leave the counter
untouched: as long as the accumulated failures stay below the threshold,
the state stays CLOSED and the counter equals the starting counter plus
the number of failures. -/
lemma runCB_closed_mixed (timeout : ℚ) (threshold : ℕ) :
    ∀ (l : List (ℚ × Bool)) (cb : CB), cb.state = .closed →
      cb.failureCount + l.countP (fun p => !p.2) < threshold →
      (runCB timeout threshold cb l).state = .closed ∧
        (runCB timeout threshold cb l).failureCount =
          cb.failureCount + l.countP (fun p => !p.2) := by
  intro l
  induction l with
  | nil => intro cb hs _; simpa using ⟨hs, rfl⟩
  | cons p rest ih =>
    intro cb hs hlt
    obtain ⟨now, b⟩ := p
    rw [List.countP_cons] at hlt
    cases b with
    | true =>
      rw [runCB, cb_call_closed_success timeout threshold cb now hs]
      have := ih cb hs (by simpa using hlt)
      simpa [List.countP_cons] using this
    | false =>
      rw [runCB, cb_call_closed_failure timeout threshold cb now hs]
      have hfc : cb.failureCount + 1 + rest.countP (fun p => !p.2) < threshold := by
        simp at hlt
        omega
      have hth : ¬ threshold ≤ cb.failureCount + 1 := by omega
      have := ih { failureCount := cb.failureCount + 1, lastFailureTime := some now,
                   state := .closed } rfl hfc
      rw [if_neg hth]
      refine ⟨this.1, ?_⟩
      rw [this.2]
      simp [List.countP_cons]
      omega

/-- Folding `CircuitBreaker.call` over an appended list. -/
lemma runCB_append (timeout : ℚ) (threshold : ℕ) :
    ∀ (l₁ l₂ : List (ℚ × Bool)) (cb : CB),
      runCB timeout threshold cb (l₁ ++ l₂) =
        runCB timeout threshold (runCB timeout threshold cb l₁) l₂ := by
  intro l₁
  induction l₁ with
  | nil => intro l₂ cb; rfl
  | cons p rest ih => intro l₂ cb; obtain ⟨now, b⟩ := p; rw [List.cons_append, runCB, runCB, ih]

/-- C4: The circuit breaker transition contract: `failureThreshold`
consecutive failures take a fresh CLOSED breaker to OPEN; while OPEN, a
call with `now - lastFailureTime <= timeout` fails fast — the wrapped
function is not invoked and the breaker is unchanged (state stays OPEN);
a call with `now - lastFailureTime > timeout` moves the breaker to
HALF_OPEN, and a success then returns it to CLOSED with the failure
counter reset to 0.  (Failure timestamps are nonzero, as produced by the
clock; `0.0` is falsy in the Python guard.) -/
theorem C4_circuit_breaker (timeout : ℚ) (threshold : ℕ) :
    (∀ (times : List ℚ) (lft : Option ℚ), times.length = threshold → 0 < threshold →
      (runCB timeout threshold { failureCount := 0, lastFailureTime := lft, state := .closed }
        (times.map fun t => (t, false))).state = .opened) ∧
    (∀ (cb : CB) (t now : ℚ) (b : Bool), cb.state = .opened →
      cb.lastFailureTime = some t → t ≠ 0 → now - t ≤ timeout →
      CB.call timeout threshold cb now b = (cb, .failFast) ∧
        CallRes.invoked .failFast = false) ∧
    (∀ (cb : CB) (t now : ℚ), cb.state = .opened →
      cb.lastFailureTime = some t → t ≠ 0 → timeout < now - t →
      CB.preCheck timeout cb now = { cb with state := .halfOpen } ∧
      CB.call timeout threshold cb now true =
        ({ cb with state := .closed, failureCount := 0 }, .ok)) := by
  refine ⟨?_, ?_, ?_⟩
  · intro times lft hlen hpos
    refine runCB_closed_fail_opens timeout threshold _ _ ?_ rfl ?_ ?_
    · intro p hp
      obtain ⟨t, _, rfl⟩ := List.mem_map.1 hp
      rfl
    · simp [List.length_map, hlen]
    · simpa using hpos
  · intro cb t now b hs hlft hne hle
    have hcond : (pyTruthyTime cb.lastFailureTime &&
        (match cb.lastFailureTime with
         | some t => decide (timeout < now - t)
         | none => false)) = false := by
      simp [hlft, pyTruthyTime, not_lt.2 hle]
    refine ⟨?_, rfl⟩
    simp [CB.call, CB.preCheck, hs, hcond]
  · intro cb t now hs hlft hne hlt
    have hcond : (pyTruthyTime cb.lastFailureTime &&
        (match cb.lastFailureTime with
         | some t => decide (timeout < now - t)
         | none => false)) = true := by
      simp [hlft, pyTruthyTime, hne, hlt]
    have hpre : CB.preCheck timeout cb now = { cb with state := .halfOpen } := by
      simp [CB.preCheck, hs, hcond]
    refine ⟨hpre, ?_⟩
    simp [CB.call, hpre]

/-- C4 witness: with `failureThreshold = 5` and `timeout = 60`, five
consecutive failures open a fresh breaker; at 59 seconds after the last
failure the call fails fast; at 61 seconds it half-opens and a success
closes it with the counter reset. -/
theorem C4_circuit_breaker_witness :
    (runCB 60 5 { failureCount := 0, lastFailureTime := none, state := .closed }
       (([1, 2, 3, 4, 5] : List ℚ).map fun t => (t, false))).state = .opened ∧
    CB.call 60 5 { failureCount := 5, lastFailureTime := some 1, state := .opened } 60 false =
      ({ failureCount := 5, lastFailureTime := some 1, state := .opened }, .failFast) ∧
    CB.call 60 5 { failureCount := 5, lastFailureTime := some 1, state := .opened } 62 true =
      ({ failureCount := 0, lastFailureTime := some 1, state := .closed }, .ok) := by
  have h := C4_circuit_breaker 60 5
  refine ⟨h.1 [1, 2, 3, 4, 5] none rfl (by decide), ?_, ?_⟩
  · exact (h.2.1 _ 1 60 false rfl rfl (by with_unfolding_all decide)
      (by with_unfolding_all decide)).1
  · exact (h.2.2 { failureCount := 5, lastFailureTime := some 1, state := .opened } 1 62
      rfl rfl (by with_unfolding_all decide) (by with_unfolding_all decide)).2

/-- C9: A successful call while the breaker is CLOSED leaves it unchanged
(in particular the failure counter is not reset), so `failureThreshold`
total failures open the breaker even when interleaved with successes:
any run from a fresh breaker whose failures number `failureThreshold`,
ending at its last failure, ends OPEN. -/
theorem C9_nonconsecutive_failures_open (timeout : ℚ) (threshold : ℕ) :
    (∀ (cb : CB) (now : ℚ), cb.state = .closed →
      CB.call timeout threshold cb now true = (cb, .ok)) ∧
    (∀ (l : List (ℚ × Bool)) (t : ℚ), 0 < threshold →
      l.countP (fun p => !p.2) = threshold - 1 →
      (runCB timeout threshold CB.init (l ++ [(t, false)])).state = .opened) := by
  refine ⟨fun cb now h => cb_call_closed_success timeout threshold cb now h, ?_⟩
  intro l t hpos hcount
  rw [runCB_append]
  have hmix := runCB_closed_mixed timeout threshold l CB.init rfl
    (by simp [CB.init, hcount]; omega)
  set cb₁ := runCB timeout threshold CB.init l with hcb₁
  have hcount₁ : cb₁.failureCount = threshold - 1 := by
    rw [hmix.2]; simp [CB.init, hcount]
  rw [runCB, cb_call_closed_failure timeout threshold cb₁ t hmix.1]
  have : threshold ≤ cb₁.failureCount + 1 := by omega
  simp [runCB, this]

/-- C9 witness: with `failureThreshold = 3`, the run
fail, success, fail, success, fail (all in CLOSED) ends OPEN, and a
success at a CLOSED breaker with a nonzero counter is a no-op. -/
theorem C9_nonconsecutive_failures_open_witness :
    CB.call 60 3 { failureCount := 2, lastFailureTime := some 1, state := .closed } 9 true =
      ({ failureCount := 2, lastFailureTime := some 1, state := .closed }, .ok) ∧
    (runCB 60 3 CB.init
      ([(1, false), (2, true), (3, false), (4, true)] ++ [((5 : ℚ), false)])).state = .opened := by
  have h := C9_nonconsecutive_failures_open 60 3
  exact ⟨h.1 _ 9 rfl, h.2 [(1, false), (2, true), (3, false), (4, true)] 5 (by decide) rfl⟩

/-! ### Retry wrapper lemmas -/

/-- Prepending the current delay to the geometric tail built with the
multiplied delay gives the geometric sequence one step longer. -/
lemma geomDelays_cons (d bf : ℚ) (n : ℕ) :
    d :: (List.range n).map (fun j => d * bf * bf ^ j) =
      (List.range (n + 1)).map (fun j => d * bf ^ j) := by
  rw [List.range_succ_eq_map, List.map_cons, List.map_map]
  refine congrArg₂ (· :: ·) (by rw [pow_zero, mul_one]) ?_
  refine List.map_congr_left (fun j _ => ?_)
  simp only [Function.comp_apply, pow_succ]
  ring

/-- Unfolding the retry loop one step at a failing attempt. -/
lemma retryGo_step_error {α : Type} (att : ℕ → Except Unit α) (maxRetries : ℕ)
    (backoffFactor : ℚ) (fuel i : ℕ) (delay : ℚ) (h : att i = .error ()) :
    retryGo att maxRetries backoffFactor (fuel + 1) i delay =
      if i < maxRetries - 1 then
        ((retryGo att maxRetries backoffFactor fuel (i + 1) (delay * backoffFactor)).1,
          delay :: (retryGo att maxRetries backoffFactor fuel (i + 1) (delay * backoffFactor)).2.1,
          (retryGo att maxRetries backoffFactor fuel (i + 1) (delay * backoffFactor)).2.2)
      else retryGo att maxRetries backoffFactor fuel (i + 1) delay := by
  rw [retryGo, h]

/-- When every attempt fails, the retry loop runs all its iterations,
sleeping a geometric sequence of delays, and returns `none`. -/
lemma retryGo_all_fail {α : Type} (att : ℕ → Except Unit α) (maxRetries : ℕ)
    (backoffFactor : ℚ) :
    ∀ (fuel i : ℕ) (delay : ℚ), i + fuel = maxRetries →
      (∀ j, j < maxRetries → att j = .error ()) →
      retryGo att maxRetries backoffFactor fuel i delay =
        (none, (List.range (fuel - 1)).map (fun j => delay * backoffFactor ^ j), maxRetries) := by
  intro fuel
  induction fuel with
  | zero =>
    intro i delay hi _
    have : i = maxRetries := by omega
    subst this
    simp [retryGo]
  | succ f ihf =>
    intro i delay hi hfail
    have hilt : i < maxRetries := by omega
    cases f with
    | zero =>
      have hno : ¬ i < maxRetries - 1 := by omega
      have hieq : i + 1 = maxRetries := by omega
      rw [retryGo_step_error att maxRetries backoffFactor 0 i delay (hfail i hilt),
        if_neg hno, retryGo]
      simp [hieq]
    | succ f' =>
      have hyes : i < maxRetries - 1 := by omega
      rw [retryGo_step_error att maxRetries backoffFactor (f' + 1) i delay (hfail i hilt),
        if_pos hyes, ihf (i + 1) (delay * backoffFactor) (by omega) hfail]
      exact congrArg (fun l => ((none : Option α), l, maxRetries))
        (geomDelays_cons delay backoffFactor f')

/-- When the first success is at attempt `k`, the retry loop returns that
value having made `k + 1` attempts. -/
lemma retryGo_success {α : Type} (att : ℕ → Except Unit α) (maxRetries : ℕ)
    (backoffFactor : ℚ) (k : ℕ) (v : α) :
    ∀ (fuel i : ℕ) (delay : ℚ), i ≤ k → k < i + fuel →
      (∀ j, i ≤ j → j < k → att j = .error ()) → att k = .ok v →
      (retryGo att maxRetries backoffFactor fuel i delay).1 = some v ∧
        (retryGo att maxRetries backoffFactor fuel i delay).2.2 = k + 1 := by
  intro fuel
  induction fuel with
  | zero => intro i delay hik hlt _ _; omega
  | succ f ihf =>
    intro i delay hik hlt hfail hok
    rcases Nat.eq_or_lt_of_le hik with heq | hik'
    · subst heq
      rw [retryGo, hok]
      exact ⟨rfl, rfl⟩
    · have hi : att i = .error () := hfail i (Nat.le_refl i) hik'
      rw [retryGo, hi]
      have ih := ihf (i + 1) (delay * backoffFactor) hik' (by omega)
        (fun j hj₁ hj₂ => hfail j (by omega) hj₂) hok
      have ih' := ihf (i + 1) delay hik' (by omega)
        (fun j hj₁ hj₂ => hfail j (by omega) hj₂) hok
      by_cases hb : i < maxRetries - 1
      · rw [if_pos hb]; exact ⟨ih.1, ih.2⟩
      · rw [if_neg hb]; exact ih'

/-- C6: The retry layer makes up to `maxRetries` attempts with exponential
backoff — the sleeps between failed attempts are
`initialDelay * backoffFactor ^ i` — and on exhaustion it does not
propagate the error: it returns the degraded no-op result `None` (the
fallback log line is a side effect outside the embedding).  A first
success at attempt `k` is returned after `k + 1 ≤ maxRetries` attempts. -/
theorem C6_retry_exhaustion_degrades {α : Type} (maxRetries : ℕ)
    (initialDelay backoffFactor : ℚ) (att : ℕ → Except Unit α) :
    ((∀ j, j < maxRetries → att j = .error ()) →
      retryWithBackoff maxRetries initialDelay backoffFactor att =
        (none, (List.range (maxRetries - 1)).map (fun j => initialDelay * backoffFactor ^ j),
          maxRetries)) ∧
    (∀ (k : ℕ) (v : α), k < maxRetries → (∀ j, j < k → att j = .error ()) →
      att k = .ok v →
      (retryWithBackoff maxRetries initialDelay backoffFactor att).1 = some v ∧
        (retryWithBackoff maxRetries initialDelay backoffFactor att).2.2 = k + 1 ∧
        k + 1 ≤ maxRetries) := by
  constructor
  · intro hfail
    exact retryGo_all_fail att maxRetries backoffFactor maxRetries 0 initialDelay
      (by omega) hfail
  · intro k v hk hfail hok
    have h := retryGo_success att maxRetries backoffFactor k v maxRetries 0 initialDelay
      (Nat.zero_le k) (by omega) (fun j _ hj => hfail j hj) hok
    exact ⟨h.1, h.2, by omega⟩

/-- C6 witness: with `maxRetries = 3`, `initialDelay = 0.1`,
`backoffFactor = 2`: all attempts failing yields `None` after 3 attempts
with sleeps 0.1 and 0.2; a success at the second attempt is returned after
2 attempts. -/
theorem C6_retry_exhaustion_degrades_witness :
    retryWithBackoff 3 (1/10) 2 (fun _ => (.error () : Except Unit ℕ)) =
      (none, (List.range 2).map (fun j => (1/10 : ℚ) * 2 ^ j), 3) ∧
    (retryWithBackoff 3 (1/10) 2
        (fun j => if j < 1 then (.error () : Except Unit ℕ) else .ok 7)).1 = some 7 ∧
    (retryWithBackoff 3 (1/10) 2
        (fun j => if j < 1 then (.error () : Except Unit ℕ) else .ok 7)).2.2 = 2 := by
  have h1 := (C6_retry_exhaustion_degrades 3 (1/10) 2
    (fun _ => (.error () : Except Unit ℕ))).1 (fun j _ => rfl)
  have h2 := (C6_retry_exhaustion_degrades 3 (1/10) 2
    (fun j => if j < 1 then (.error () : Except Unit ℕ) else .ok 7)).2 1 7
    (by decide) (fun j hj => by
      have : j = 0 := by omega
      subst this
      rfl) rfl
  exact ⟨h1, h2.1, h2.2.1⟩

/-! ### Orchestrator lemmas and claims -/

/-- Every response produced after generation carries the token counts from
the usage metadata and the `llm_generation` source. -/
lemma llmRespond_fields (cfg : AppConfig) (req : AskReq) (gen : GenRes)
    (judge : Option Verdict) (it ot : ℕ) :
    (llmRespond cfg req gen judge it ot).tokensInput = it ∧
    (llmRespond cfg req gen judge it ot).tokensOutput = ot ∧
    (llmRespond cfg req gen judge it ot).tokensTotal = it + ot ∧
    (llmRespond cfg req gen judge it ot).source = "llm_generation" := by
  simp only [llmRespond]
  split
  · split
    · split
      · exact ⟨rfl, rfl, rfl, rfl⟩
      · exact ⟨rfl, rfl, rfl, rfl⟩
    · exact ⟨rfl, rfl, rfl, rfl⟩
  · exact ⟨rfl, rfl, rfl, rfl⟩

/-- C5 (amended): For every request that reaches generative-model
invocation, a generative response whose usage metadata is absent is a
fatal error for that request: the strict-accounting check constructs the
telemetry-integrity `HTTPException` (error kind
`token_metadata_unavailable`), but that exception is caught by the
route's final `except Exception` clause and re-raised by `_handle_error`,
so the error surfaced to the caller carries kind `"unexpected"` with
status 500; and every returned response from the generation path carries
the token counts of the usage metadata — never a synthesized-zero
count. -/
theorem C5_missing_usage_fatal_rebranded (cfg : AppConfig) (req : AskReq) (rag : RagRes)
    (lim : List ℚ) (now : ℚ) (gen : GenRes) (judge : Option Verdict) :
    strictTokenAccounting none =
      .error { statusCode := 500, errorKind := "token_metadata_unavailable" } ∧
    ((rag.isDisabled && !(cfg.enableLLM && !cfg.safeMode)) = false →
      (routerDecision cfg req.needsReasoning req.testMode rag.bestScore now lim).shouldInvoke
        = true →
      gen.usage = none →
      askModel cfg req rag lim now gen judge =
        .error { statusCode := 500, errorKind := "unexpected" }) ∧
    (∀ r, askModel cfg req rag lim now gen judge = .ok r → r.source = "llm_generation" →
      ∃ it ot, gen.usage = some (it, ot) ∧ r.tokensInput = it ∧ r.tokensOutput = ot ∧
        r.tokensTotal = it + ot) := by
  refine ⟨rfl, ?_, ?_⟩
  · intro hEarly hInv hU
    simp only [askModel]
    rw [hEarly, hInv, hU]
    simp [strictTokenAccounting, handle_error]
  · intro r hok hsrc
    cases hEarly : (rag.isDisabled && !(cfg.enableLLM && !cfg.safeMode)) with
    | true =>
      simp only [askModel] at hok
      rw [hEarly] at hok
      simp at hok
      subst hok
      simp at hsrc
    | false =>
      cases hInv : (routerDecision cfg req.needsReasoning req.testMode rag.bestScore
          now lim).shouldInvoke with
      | false =>
        simp only [askModel] at hok
        rw [hEarly, hInv] at hok
        simp at hok
        subst hok
        simp at hsrc
      | true =>
        rcases hu : gen.usage with _ | ⟨it, ot⟩
        · simp only [askModel] at hok
          rw [hEarly, hInv, hu] at hok
          simp [strictTokenAccounting] at hok
        · simp only [askModel] at hok
          rw [hEarly, hInv, hu] at hok
          simp [strictTokenAccounting] at hok
          have hf := llmRespond_fields cfg req gen judge it ot
          subst hok
          exact ⟨it, ot, rfl, hf.1, hf.2.1, hf.2.2.1⟩

/-- C5 counterexample: with the default configuration and a request
routed to generation, a response with `usage = none` makes the request
fail with the re-branded error kind `"unexpected"` — not with the
`token_metadata_unavailable` kind the claim says is surfaced to the
caller (that kind exists only on the inner, swallowed exception). -/
theorem C5_missing_usage_counterexample :
    askModel cfgD reqD ragD [] 0 { text := "answer", usage := none } none =
      .error { statusCode := 500, errorKind := "unexpected" } ∧
    ({ statusCode := 500, errorKind := "unexpected" } : HttpErr) ≠
      { statusCode := 500, errorKind := "token_metadata_unavailable" } := by
  constructor
  · with_unfolding_all rfl
  · decide

/-- C5 witness: with the default configuration and a request routed to
generation at t=1, a response with `usage = none` makes the request fail
with status 500 and the re-branded kind `"unexpected"` (the
`token_metadata_unavailable` kind sits on the inner exception); with
usage `(3, 4)` the returned response carries exactly those token
counts. -/
theorem C5_missing_usage_fatal_rebranded_witness :
    strictTokenAccounting none =
      .error { statusCode := 500, errorKind := "token_metadata_unavailable" } ∧
    askModel cfgD reqD ragD [] 1 { text := "resp", usage := none } none =
      .error { statusCode := 500, errorKind := "unexpected" } ∧
    (∃ it ot, ({ text := "resp", usage := some (3, 4) } : GenRes).usage = some (it, ot) ∧
      (llmRespond cfgD reqD { text := "resp", usage := some (3, 4) } none 3 4).tokensInput
          = it ∧
      (llmRespond cfgD reqD { text := "resp", usage := some (3, 4) } none 3 4).tokensOutput
          = ot ∧
      (llmRespond cfgD reqD { text := "resp", usage := some (3, 4) } none 3 4).tokensTotal
          = it + ot) := by
  refine ⟨(C5_missing_usage_fatal_rebranded cfgD reqD ragD [] 1
    { text := "resp", usage := none } none).1, ?_, ?_⟩
  · exact (C5_missing_usage_fatal_rebranded cfgD reqD ragD [] 1
      { text := "resp", usage := none } none).2.1 rfl (by with_unfolding_all decide) rfl
  · exact (C5_missing_usage_fatal_rebranded cfgD reqD ragD [] 1
      { text := "resp", usage := some (3, 4) } none).2.2
      (llmRespond cfgD reqD { text := "resp", usage := some (3, 4) } none 3 4)
      (by with_unfolding_all rfl) (by with_unfolding_all rfl)

/-- C3: In synchronous-judge (hallucination demo) mode, a judge verdict
with `hallucinationScore > 0.6` or `groundingCoverage < 0.4` makes the
orchestrator return status `blocked` with the fixed blocked payload
replacing the original answer; the verdict
`hallucinationScore = 0.1, groundingCoverage = 0.9` yields status
`success` with the original answer intact. -/
theorem C3_sync_judge_blocking (cfg : AppConfig) (req : AskReq) (rag : RagRes)
    (lim : List ℚ) (now : ℚ) (gen : GenRes) (judge : Option Verdict)
    (it ot : ℕ) (v : Verdict)
    (hm : req.testMode = some "hallucination")
    (hEarly : (rag.isDisabled && !(cfg.enableLLM && !cfg.safeMode)) = false)
    (hInv : (routerDecision cfg req.needsReasoning req.testMode rag.bestScore now
      lim).shouldInvoke = true)
    (hu : gen.usage = some (it, ot)) (hj : judge = some v) :
    ((6/10 < v.hallucinationScore ∨ v.groundingCoverage < 4/10) →
      ∃ r, askModel cfg req rag lim now gen judge = .ok r ∧ r.status = "blocked" ∧
        r.answer = blockedAnswer) ∧
    (v.hallucinationScore = 1/10 → v.groundingCoverage = 9/10 →
      ∃ r, askModel cfg req rag lim now gen judge = .ok r ∧ r.status = "success" ∧
        r.answer = gen.text ∧ r.hallucinationScore = 1/10) := by
  have hask : askModel cfg req rag lim now gen judge =
      .ok (llmRespond cfg req gen judge it ot) := by
    simp only [askModel]
    rw [hEarly, hInv, hu]
    simp [strictTokenAccounting]
  constructor
  · intro hb
    refine ⟨llmRespond cfg req gen judge it ot, hask, ?_, ?_⟩ <;>
      simp [llmRespond, hm, hj, hb]
  · intro h1 h2
    refine ⟨llmRespond cfg req gen judge it ot, hask, ?_, ?_, ?_⟩ <;>
      norm_num [llmRespond, hm, hj, h1, h2]

/-- C3 witness: with the hallucination-demo request routed to generation,
verdict (0.8, 0.2) blocks with the fixed payload and verdict (0.1, 0.9)
returns the original answer with status success. -/
theorem C3_sync_judge_blocking_witness :
    (∃ r, askModel cfgD reqHalluc ragD [] 0 genD
        (some { hallucinationScore := 8/10, groundingCoverage := 2/10 }) = .ok r ∧
      r.status = "blocked" ∧ r.answer = blockedAnswer) ∧
    (∃ r, askModel cfgD reqHalluc ragD [] 0 genD
        (some { hallucinationScore := 1/10, groundingCoverage := 9/10 }) = .ok r ∧
      r.status = "success" ∧ r.answer = genD.text ∧ r.hallucinationScore = 1/10) := by
  constructor
  · exact (C3_sync_judge_blocking cfgD reqHalluc ragD [] 0 genD
      (some { hallucinationScore := 8/10, groundingCoverage := 2/10 }) 5 7
      { hallucinationScore := 8/10, groundingCoverage := 2/10 }
      rfl rfl (by with_unfolding_all decide) rfl rfl).1
      (Or.inl (by with_unfolding_all decide))
  · exact (C3_sync_judge_blocking cfgD reqHalluc ragD [] 0 genD
      (some { hallucinationScore := 1/10, groundingCoverage := 9/10 }) 5 7
      { hallucinationScore := 1/10, groundingCoverage := 9/10 }
      rfl rfl (by with_unfolding_all decide) rfl rfl).2 rfl rfl

/-- C2 (amended): For a request that does not demand reasoning and sets no
test/demo override mode, `bestScore >= similarityThreshold` yields
`shouldInvoke = false` with the `high_similarity` reason;
`bestScore < similarityThreshold` yields `shouldInvoke = true` unless a
guardrail fires, and the guardrails are evaluated in the fixed order
generation kill-switch, panic threshold, rate-limiter `tryAcquire`, the
first that applies determining the reported skip reason (`llm_disabled`,
`panic_threshold`, `rate_limited` respectively). -/
theorem C2_router_guardrail_order (cfg : AppConfig) (testMode : Option String)
    (bestScore now : ℚ) (lim : List ℚ)
    (htm1 : testMode ≠ some "hallucination") (htm2 : testMode ≠ some "cost") :
    (cfg.simThreshold ≤ bestScore →
      routerDecision cfg false testMode bestScore now lim =
        { shouldInvoke := false, invocationReason := none,
          skipReason := some (.highSimilarity bestScore), limiterAfter := lim }) ∧
    (bestScore < cfg.simThreshold →
      (cfg.enableLLM = false →
        routerDecision cfg false testMode bestScore now lim =
          { shouldInvoke := false, invocationReason := some (.lowSimilarity bestScore),
            skipReason := some .llmDisabled, limiterAfter := lim }) ∧
      (cfg.enableLLM = true →
        slidePanic cfg.rateLimitMaxCalls cfg.windowSeconds now cfg.panicThreshold lim
          = true →
        routerDecision cfg false testMode bestScore now lim =
          { shouldInvoke := false, invocationReason := some (.lowSimilarity bestScore),
            skipReason := some .panicThreshold,
            limiterAfter := slideCleanup cfg.windowSeconds now lim }) ∧
      (cfg.enableLLM = true →
        slidePanic cfg.rateLimitMaxCalls cfg.windowSeconds now cfg.panicThreshold lim
          = false →
        (slideAllowed cfg.rateLimitMaxCalls cfg.windowSeconds now
          (slideCleanup cfg.windowSeconds now lim)).1 = false →
        routerDecision cfg false testMode bestScore now lim =
          { shouldInvoke := false, invocationReason := some (.lowSimilarity bestScore),
            skipReason := some .rateLimited,
            limiterAfter := (slideAllowed cfg.rateLimitMaxCalls cfg.windowSeconds now
              (slideCleanup cfg.windowSeconds now lim)).2 }) ∧
      (cfg.enableLLM = true →
        slidePanic cfg.rateLimitMaxCalls cfg.windowSeconds now cfg.panicThreshold lim
          = false →
        (slideAllowed cfg.rateLimitMaxCalls cfg.windowSeconds now
          (slideCleanup cfg.windowSeconds now lim)).1 = true →
        routerDecision cfg false testMode bestScore now lim =
          { shouldInvoke := true, invocationReason := some (.lowSimilarity bestScore),
            skipReason := none,
            limiterAfter := (slideAllowed cfg.rateLimitMaxCalls cfg.windowSeconds now
              (slideCleanup cfg.windowSeconds now lim)).2 })) := by
  constructor
  · intro hge
    simp [routerDecision, htm1, htm2, not_lt.2 hge]
  · intro hlt
    refine ⟨?_, ?_, ?_, ?_⟩
    · intro henl
      simp [routerDecision, htm1, htm2, hlt, henl]
    · intro henl hpanic
      simp [routerDecision, htm1, htm2, hlt, henl, hpanic]
    · intro henl hpanic hallow
      simp [routerDecision, htm1, htm2, hlt, henl, hpanic, hallow]
    · intro henl hpanic hallow
      simp [routerDecision, htm1, htm2, hlt, henl, hpanic, hallow]

/-- C2 counterexample: with the default configuration, a request in
hallucination test mode with `bestScore = 1 ≥ similarityThreshold = 0.7`
still yields `shouldInvoke = true` with no skip reason — not
`shouldInvoke = false` with a `high_similarity` reason as the claim
states for every request. -/
theorem C2_router_counterexample :
    cfgD.simThreshold ≤ 1 ∧
    (routerDecision cfgD false (some "hallucination") 1 0 []).shouldInvoke = true ∧
    (routerDecision cfgD false (some "hallucination") 1 0 []).skipReason = none := by
  refine ⟨?_, ?_, ?_⟩ <;> with_unfolding_all decide

/-- C2 witness: the five branches at concrete inputs — high similarity
(score 0.8), and low similarity (score 0.5) against the kill-switch, the
panic threshold (2-call limit, both used), the rate limiter (1-call limit
with raised panic threshold), and the allowed path. -/
theorem C2_router_guardrail_order_witness :
    routerDecision cfgD false none (8/10) 0 [] =
      { shouldInvoke := false, invocationReason := none,
        skipReason := some (.highSimilarity (8/10)), limiterAfter := [] } ∧
    routerDecision cfgOff false none (1/2) 0 [] =
      { shouldInvoke := false, invocationReason := some (.lowSimilarity (1/2)),
        skipReason := some .llmDisabled, limiterAfter := [] } ∧
    routerDecision cfgPanic false none (1/2) 1 [0, 0] =
      { shouldInvoke := false, invocationReason := some (.lowSimilarity (1/2)),
        skipReason := some .panicThreshold, limiterAfter := [0, 0] } ∧
    routerDecision cfgRL false none (1/2) 1 [0] =
      { shouldInvoke := false, invocationReason := some (.lowSimilarity (1/2)),
        skipReason := some .rateLimited, limiterAfter := [0] } ∧
    routerDecision cfgD false none (1/2) 0 [] =
      { shouldInvoke := true, invocationReason := some (.lowSimilarity (1/2)),
        skipReason := none, limiterAfter := [0] } := by
  refine ⟨?_, ?_, ?_, ?_, ?_⟩
  · exact (C2_router_guardrail_order cfgD none (8/10) 0 [] (by decide) (by decide)).1
      (by with_unfolding_all decide)
  · exact ((C2_router_guardrail_order cfgOff none (1/2) 0 []
      (by decide) (by decide)).2 (by with_unfolding_all decide)).1 rfl
  · have h := ((C2_router_guardrail_order cfgPanic none (1/2) 1 [0, 0]
      (by decide) (by decide)).2 (by with_unfolding_all decide)).2.1
      rfl (by with_unfolding_all decide)
    rw [h]
    with_unfolding_all decide
  · have h := ((C2_router_guardrail_order cfgRL none (1/2) 1 [0]
      (by decide) (by decide)).2 (by with_unfolding_all decide)).2.2.1 rfl
      (by with_unfolding_all decide) (by with_unfolding_all decide)
    rw [h]
    with_unfolding_all decide
  · have h := ((C2_router_guardrail_order cfgD none (1/2) 0 []
      (by decide) (by decide)).2 (by with_unfolding_all decide)).2.2.2 rfl
      (by with_unfolding_all decide) (by with_unfolding_all decide)
    rw [h]
    with_unfolding_all decide

/-- C7 (amended): When strict JSON parsing of the judge response fails,
the judge reparses the slice from the first `\x7b` to the last `\x7d`
(provided both occur); if that also fails — or no braces occur — the judge
call yields no verdict (`none`) rather than a blocking decision, the
`except` handlers at the judge boundary swallowing the error; when the
reparse succeeds, the verdict is extracted from the reparsed value. -/
theorem C7_judge_parse_policy (text : String) (hfail : jsonLoads text = none) :
    ((text.data.contains lbrace && text.data.contains rbrace) = false →
      judgeVerdict text = none) ∧
    ((text.data.contains lbrace && text.data.contains rbrace) = true →
      jsonLoadsChars (judgeSlice text.data) = none → judgeVerdict text = none) ∧
    (∀ j, (text.data.contains lbrace && text.data.contains rbrace) = true →
      jsonLoadsChars (judgeSlice text.data) = some j →
      judgeVerdict text = extractVerdict j) := by
  refine ⟨?_, ?_, ?_⟩
  · intro hbr
    simp only [judgeVerdict, judgeParsedJson, hfail]
    rw [hbr]
    simp
  · intro hbr hslice
    simp only [judgeVerdict, judgeParsedJson, hfail]
    rw [hbr]
    simp [hslice]
  · intro j hbr hslice
    simp only [judgeVerdict, judgeParsedJson, hfail]
    rw [hbr]
    simp [hslice]

/-- C7 counterexample: on the judge text
`\x7b"hallucination_score": 0.9, "grounding_coverage": 0.2\x7d\x7d`
(a well-formed object followed by a stray closing brace), strict parsing
fails; the claim's "first balanced `\x7b...\x7d` substring" reparse would
succeed and yield the verdict (0.9, 0.2), but the code's
first-`\x7b`-to-last-`\x7d` slice is the whole text, which fails to parse
again, so the judge yields no verdict. -/
theorem C7_judge_parse_counterexample :
    judgeVerdict
      "\x7b\"hallucination_score\": 0.9, \"grounding_coverage\": 0.2\x7d\x7d" = none ∧
    specJudgeVerdict
      "\x7b\"hallucination_score\": 0.9, \"grounding_coverage\": 0.2\x7d\x7d" =
      some { hallucinationScore := 9/10, groundingCoverage := 1/5 } := by
  constructor <;> with_unfolding_all decide

/-- C7 witness: a brace-free text yields no verdict, and a text whose
strict parse fails but whose brace slice parses yields the verdict
extracted from the reparsed object. -/
theorem C7_judge_parse_policy_witness :
    judgeVerdict "no json here" = none ∧
    judgeVerdict "noise \x7b\"hallucination_score\": 0.5\x7d" =
      extractVerdict (Json.jobj [("hallucination_score".data, Json.jnum (1/2))]) := by
  constructor
  · exact (C7_judge_parse_policy "no json here" (by with_unfolding_all rfl)).1
      (by decide)
  · exact (C7_judge_parse_policy "noise \x7b\"hallucination_score\": 0.5\x7d"
      (by with_unfolding_all rfl)).2.2
      (Json.jobj [("hallucination_score".data, Json.jnum (1/2))]) (by decide)
      (by with_unfolding_all rfl)

/-! ### Sliding-window rate limiter lemmas -/

/-- The purge only removes timestamps `< now - w`, so for any later
reading `u ≥ now` the count of timestamps `≥ u - w` is unchanged. -/
lemma countP_cleanup (w now u : ℚ) (hu : now ≤ u) (s : List ℚ) :
    s.countP (fun t => decide (u - w ≤ t)) =
      (slideCleanup w now s).countP (fun t => decide (u - w ≤ t)) := by
  conv_lhs => rw [← List.takeWhile_append_dropWhile
    (p := fun t => decide (t < now - w)) (l := s)]
  rw [List.countP_append]
  have hzero : (s.takeWhile (fun t => decide (t < now - w))).countP
      (fun t => decide (u - w ≤ t)) = 0 := by
    rw [List.countP_eq_zero]
    intro t ht hp
    have h1 := List.mem_takeWhile_imp ht
    simp only [decide_eq_true_eq] at h1 hp
    linarith
  rw [hzero, Nat.zero_add]
  rfl

/-- On a sorted deque (the reachable states under nondecreasing clocks),
the front purge removes exactly the timestamps older than `now - w`. -/
lemma slideCleanup_sorted_filter (w now : ℚ) :
    ∀ s : List ℚ, s.Sorted (· ≤ ·) →
      slideCleanup w now s = s.filter (fun t => decide (now - w ≤ t)) := by
  intro s
  induction s with
  | nil => intro _; rfl
  | cons t rest ih =>
    intro hs
    rw [List.sorted_cons] at hs
    obtain ⟨hall, hrest⟩ := hs
    by_cases hold : t < now - w
    · have hstep : slideCleanup w now (t :: rest) = slideCleanup w now rest := by
        simp [slideCleanup, List.dropWhile_cons, hold]
      rw [hstep, ih hrest, List.filter_cons, if_neg (by simp [not_le.2 hold])]
    · have hstep : slideCleanup w now (t :: rest) = t :: rest := by
        simp [slideCleanup, List.dropWhile_cons, hold]
      rw [hstep, List.filter_cons, if_pos (by simp [not_lt.1 hold])]
      refine congrArg (t :: ·) ?_
      symm
      rw [List.filter_eq_self]
      intro x hx
      have := hall x hx
      have := not_lt.1 hold
      simp only [decide_eq_true_eq]
      linarith

/-- The windowed-count invariant for runs of `is_allowed` under
nondecreasing call timestamps: if every window-count over the already
accepted timestamps `acc` is within the limit, and the deque `s` dominates
`acc` on every suffix window readable at or after `T`, then the property
persists through the whole run. -/
lemma slideAccepted_invariant (maxCalls : ℕ) (w : ℚ) :
    ∀ (calls s acc : List ℚ) (T : ℚ),
      List.Chain (· ≤ ·) T calls →
      (∀ u, T ≤ u → acc.countP (fun t => decide (u - w ≤ t)) ≤
          s.countP (fun t => decide (u - w ≤ t))) →
      (∀ a, acc.countP (inWindow w a) ≤ maxCalls) →
      ∀ a, (acc ++ slideAccepted maxCalls w calls s).countP (inWindow w a) ≤ maxCalls := by
  intro calls
  induction calls with
  | nil =>
    intro s acc T _ _ h3 a
    simpa [slideAccepted] using h3 a
  | cons now rest ih =>
    intro s acc T hchain h2 h3 a
    rw [List.chain_cons] at hchain
    obtain ⟨hTn, hchain'⟩ := hchain
    by_cases hfull : maxCalls ≤ (slideCleanup w now s).length
    · -- call rejected: the deque is purged, nothing is accepted
      have hstep : slideAccepted maxCalls w (now :: rest) s =
          slideAccepted maxCalls w rest (slideCleanup w now s) := by
        simp [slideAccepted, slideAllowed, hfull]
      rw [hstep]
      refine ih (slideCleanup w now s) acc now hchain' ?_ h3 a
      intro u hu
      exact le_trans (h2 u (le_trans hTn hu)) (le_of_eq (countP_cleanup w now u hu s))
    · -- call accepted: `now` is appended to the purged deque and recorded
      have hstep : slideAccepted maxCalls w (now :: rest) s =
          now :: slideAccepted maxCalls w rest (slideCleanup w now s ++ [now]) := by
        simp [slideAccepted, slideAllowed, hfull]
      rw [hstep, show acc ++ now :: slideAccepted maxCalls w rest
          (slideCleanup w now s ++ [now]) =
        (acc ++ [now]) ++ slideAccepted maxCalls w rest
          (slideCleanup w now s ++ [now]) by simp]
      refine ih (slideCleanup w now s ++ [now]) (acc ++ [now]) now hchain' ?_ ?_ a
      · intro u hu
        rw [List.countP_append, List.countP_append]
        have hd := h2 u (le_trans hTn hu)
        have he := countP_cleanup w now u hu s
        omega
      · intro b
        rw [List.countP_append]
        by_cases hin : inWindow w b now = true
        · obtain ⟨hb1, hb2⟩ : b ≤ now ∧ now ≤ b + w := by
            simpa [inWindow, Bool.and_eq_true, decide_eq_true_eq] using hin
          have key : acc.countP (inWindow w b) ≤
              (slideCleanup w now s).countP (fun t => decide (now - w ≤ t)) :=
            calc acc.countP (inWindow w b)
                ≤ acc.countP (fun t => decide (now - w ≤ t)) := by
                  refine List.countP_mono_left (fun t _ hp => ?_)
                  simp only [inWindow, Bool.and_eq_true, decide_eq_true_eq] at hp
                  simp only [decide_eq_true_eq]
                  linarith [hp.1]
              _ ≤ s.countP (fun t => decide (now - w ≤ t)) := h2 now hTn
              _ = (slideCleanup w now s).countP (fun t => decide (now - w ≤ t)) :=
                  countP_cleanup w now now (le_refl now) s
          have hlen := List.countP_le_length
            (p := fun t => decide (now - w ≤ t)) (l := slideCleanup w now s)
          have hone := List.countP_le_length (p := inWindow w b) (l := [now])
          simp only [List.length_singleton] at hone
          have hlt := Nat.lt_of_not_le hfull
          omega
        · have hone : ([now].countP (inWindow w b)) = 0 := by
            simp [List.countP_cons, hin]
          have := h3 b
          omega

/-- C1 (amended): `is_allowed` first purges the timestamps older than
`now - windowSeconds` (exactly those, on the sorted deques reachable under
a nondecreasing clock), returns `false` with no append when the remaining
count is `>= maxCalls`, and otherwise appends `now` and returns `true`;
and for every sequence of calls with NONDECREASING timestamps, the number
of accepted calls whose timestamps lie within any closed window
`[a, a + windowSeconds]` never exceeds `maxCalls`. -/
theorem C1_sliding_window_bound (maxCalls : ℕ) (w : ℚ) :
    (∀ (now : ℚ) (s : List ℚ), s.Sorted (· ≤ ·) →
      slideCleanup w now s = s.filter (fun t => decide (now - w ≤ t))) ∧
    (∀ (now : ℚ) (s : List ℚ), maxCalls ≤ (slideCleanup w now s).length →
      slideAllowed maxCalls w now s = (false, slideCleanup w now s)) ∧
    (∀ (now : ℚ) (s : List ℚ), (slideCleanup w now s).length < maxCalls →
      slideAllowed maxCalls w now s = (true, slideCleanup w now s ++ [now])) ∧
    (∀ calls : List ℚ, List.Chain' (· ≤ ·) calls →
      ∀ a, (slideAccepted maxCalls w calls []).countP (inWindow w a) ≤ maxCalls) := by
  refine ⟨fun now s hs => slideCleanup_sorted_filter w now s hs, ?_, ?_, ?_⟩
  · intro now s hfull
    simp [slideAllowed, hfull]
  · intro now s hroom
    simp [slideAllowed, Nat.not_le_of_lt hroom]
  · intro calls hmono a
    cases calls with
    | nil => simp [slideAccepted]
    | cons c cs =>
      have hchain : List.Chain (· ≤ ·) c (c :: cs) := by
        rw [List.chain_cons]
        exact ⟨le_refl c, hmono⟩
      simpa using slideAccepted_invariant maxCalls w (c :: cs) [] [] c hchain
        (by intro u _; simp) (by intro b; simp) a

/-- C1 counterexample: the claim quantifies over ARBITRARY timestamps, but
with a clock that moves backwards the bound fails.  With `maxCalls = 2`,
`windowSeconds = 10` and calls at times 0, 0, 11, 1 every call except
none is rejected — the run accepts all four calls — and the window
`[0, 10]` contains the three accepted timestamps 0, 0, 1 > 2.  (At t=11
the purge evicts both 0s, and at t=1 the purge cannot evict 11 from the
deque front, so the call is admitted.) -/
theorem C1_sliding_window_counterexample :
    slideAccepted 2 10 [0, 0, 11, 1] [] = [0, 0, 11, 1] ∧
    (slideAccepted 2 10 [0, 0, 11, 1] []).countP (inWindow 10 0) = 3 ∧ 2 < 3 := by
  refine ⟨?_, ?_, ?_⟩ <;> with_unfolding_all decide

/-- C1 witness: with `maxCalls = 3`, `windowSeconds = 10`: the purge on
the sorted deque `[0, 0, 5]` at t=11 keeps exactly `[5]`; a full window at
t=10 rejects; a call at t=11 after eviction accepts; and the monotone run
0, 0, 0, 0, 11 accepts at most 3 calls inside the window `[0, 10]`. -/
theorem C1_sliding_window_bound_witness :
    slideCleanup 10 11 [0, 0, 5] = [(5 : ℚ)] ∧
    slideAllowed 3 10 10 [0, 0, 0] = (false, [0, 0, 0]) ∧
    slideAllowed 3 10 11 [0, 0, 0] = (true, [11]) ∧
    (slideAccepted 3 10 [0, 0, 0, 0, 11] []).countP (inWindow 10 0) ≤ 3 := by
  have h := C1_sliding_window_bound 3 10
  refine ⟨?_, ?_, ?_, ?_⟩
  · have h1 := h.1 11 [0, 0, 5] (by
      rw [List.sorted_cons, List.sorted_cons]
      refine ⟨?_, ?_, List.sorted_singleton 5⟩ <;> intro b hb <;> simp at hb
      · rcases hb with rfl | rfl <;> with_unfolding_all decide
      · subst hb; with_unfolding_all decide)
    rw [h1]
    with_unfolding_all decide
  · have h2 := h.2.1 10 [0, 0, 0] (by with_unfolding_all decide)
    rw [h2]
    with_unfolding_all decide
  · have h3 := h.2.2.1 11 [0, 0, 0] (by with_unfolding_all decide)
    rw [h3]
    with_unfolding_all decide
  · refine h.2.2.2 [0, 0, 0, 0, 11] ?_ 0
    rw [List.chain'_cons, List.chain'_cons, List.chain'_cons, List.chain'_cons]
    refine ⟨?_, ?_, ?_, ?_, List.chain'_singleton 11⟩ <;> with_unfolding_all decide

end IncidentCommander
